import Mathlib

/-!
Shallow embedding of the Khushu backend (Express + Mongoose product catalog and
auth routes). The Mongo store is embedded as an explicit list of documents that
is threaded through each handler; `findById`, `findByIdAndUpdate` and
`countDocuments` are embedded as first-match lookup, first-match functional
update, and filtered length over that list. The repository contains two
historical variants of several handlers: the router file
(src/routes/productRoutes.js, paginated variant) and the inline server file
(src/unnamed/part_000); where they differ both are embedded, with the server
variant carrying a Server suffix.
-/

namespace Khushu

/-- An image attached to a product: either a URL/path reference (disk storage
variants) or an inline binary blob with a content type (binary storage
variants). The claims only inspect the image sequence itself, never the bytes. -/
inductive Image where
  | ref (url : String)
  | blob (data : List Nat) (contentType : String)
deriving DecidableEq

/-- A product document. `pid` embeds the opaque Mongo `_id`; `createdAt` is an
abstract creation timestamp used by the `sort({createdAt: -1})` stage. -/
structure Product where
  pid : Nat
  name : String
  description : String
  category : String
  images : List Image
  price : Rat
  stock : Int
  isActive : Bool
  createdAt : Nat
deriving DecidableEq

/-- `Product.findById(id)`: Mongo lookup by unique `_id`, embedded as the first
match in the store list. Note: no `isActive` condition. -/
def findById (store : List Product) (id : Nat) : Option Product :=
  match store with
  | [] => none
  | p :: rest => if p.pid == id then some p else findById rest id

/-- Applies `f` to the first document whose `_id` matches `id`, embedding a
Mongo single-document update (ids are unique in Mongo, so first match). -/
def updateById (store : List Product) (id : Nat) (f : Product → Product) :
    List Product :=
  match store with
  | [] => []
  | p :: rest =>
      if p.pid == id then f p :: rest else p :: updateById rest id f

/-- `Product.findByIdAndUpdate(id, u, {new: true})`: returns the updated
document (none when the id is absent) together with the updated store. -/
def findByIdAndUpdate (store : List Product) (id : Nat) (f : Product → Product) :
    Option Product × List Product :=
  ((findById store id).map f, updateById store id f)

/-- `sort({createdAt: -1})`: newest first (a sort for the newest-first order;
the claims only depend on the result being a reordering, never on tie order). -/
def sortByCreatedAtDesc (l : List Product) : List Product :=
  l.insertionSort (fun a b => b.createdAt ≤ a.createdAt)

/-- Embedding of `Math.ceil(a / b)` for natural `a` and positive natural `b`
(the exact value of the JS float computation in the range involved). -/
def jsCeilDiv (a b : Nat) : Nat :=
  a / b + (if a % b = 0 then 0 else 1)

/-- Embedding of a Mongo `$regex` field condition with the case-insensitive option for a
metacharacter-free pattern: case-insensitive substring containment.
`startsWithChars hay pat` holds when `pat` is an initial segment of `hay`. -/
def startsWithChars : List Char → List Char → Bool
  | _, [] => true
  | [], _ :: _ => false
  | c :: cs, d :: ds => c == d && startsWithChars cs ds

/-- `containsChars hay pat` holds when `pat` occurs contiguously in `hay`. -/
def containsChars : List Char → List Char → Bool
  | [], pat => pat.isEmpty
  | c :: cs, pat => startsWithChars (c :: cs) pat || containsChars cs pat

/-- Case-insensitive substring test on strings (both sides lower-cased),
embedding the case-insensitive regex option for a literal pattern. -/
def regexMatchCI (field q : String) : Bool :=
  containsChars (field.data.map Char.toLower) (q.data.map Char.toLower)

/-- Embedding of the JS `toLowerCase()` used on emails (character-wise lower
casing of the underlying character sequence). -/
def lowerCase (s : String) : String :=
  String.mk (s.data.map Char.toLower)

/-- The search criteria of src/routes/productRoutes.js GET /search/:query:
`{$and: [{isActive: true}, {$or: [name, description, category regexes]}]}`. -/
def searchCriteria (q : String) (p : Product) : Bool :=
  p.isActive &&
    (regexMatchCI p.name q || regexMatchCI p.description q ||
      regexMatchCI p.category q)

/-- The search criteria of src/unnamed/part_000 GET /api/products/search/:query:
same shape but the `$or` has only the name and description regexes. -/
def searchCriteriaServer (q : String) (p : Product) : Bool :=
  p.isActive && (regexMatchCI p.name q || regexMatchCI p.description q)

/-- JSON envelope of the paginated list endpoint. -/
structure ListResponse where
  success : Bool
  count : Nat
  data : List Product
  page : Nat
  totalPages : Nat
  hasNextPage : Bool
  hasPrevPage : Bool
deriving DecidableEq

/-- JSON envelope of the paginated search endpoints (adds `searchQuery`). -/
structure SearchResponse where
  success : Bool
  count : Nat
  data : List Product
  page : Nat
  totalPages : Nat
  hasNextPage : Bool
  hasPrevPage : Bool
  searchQuery : String
deriving DecidableEq

/-- GET / (paginated list, identical in src/routes/productRoutes.js lines
258-281 and src/unnamed/part_000 lines 36-58): filters `{isActive: true}`,
sorts newest first, applies `skip = (page-1)*limit` and `limit`, and derives
the pagination metadata from `total = countDocuments({isActive: true})`.
`page` and `limit` arrive already parsed (the `parseInt(..) || default`
defaulting happens upstream of this logic). -/
def listProducts (store : List Product) (page limit : Nat) : ListResponse :=
  let skip := (page - 1) * limit
  let total := (store.filter (fun p => p.isActive)).length
  { success := true
    count := total
    data := ((sortByCreatedAtDesc (store.filter (fun p => p.isActive))).drop skip).take limit
    page := page
    totalPages := jsCeilDiv total limit
    hasNextPage := decide (page * limit < total)
    hasPrevPage := decide (page > 1) }

/-- GET /search/:query (src/routes/productRoutes.js lines 292-318): same
pagination pipeline over `searchCriteria`. -/
def searchProducts (store : List Product) (q : String) (page limit : Nat) :
    SearchResponse :=
  let skip := (page - 1) * limit
  let total := (store.filter (searchCriteria q)).length
  { success := true
    count := total
    data := ((sortByCreatedAtDesc (store.filter (searchCriteria q))).drop skip).take limit
    page := page
    totalPages := jsCeilDiv total limit
    hasNextPage := decide (page * limit < total)
    hasPrevPage := decide (page > 1)
    searchQuery := q }

/-- GET /api/products/search/:query (src/unnamed/part_000 lines 69-102): same
pipeline over `searchCriteriaServer` (no category condition). -/
def searchProductsServer (store : List Product) (q : String) (page limit : Nat) :
    SearchResponse :=
  let skip := (page - 1) * limit
  let total := (store.filter (searchCriteriaServer q)).length
  { success := true
    count := total
    data := ((sortByCreatedAtDesc (store.filter (searchCriteriaServer q))).drop skip).take limit
    page := page
    totalPages := jsCeilDiv total limit
    hasNextPage := decide (page * limit < total)
    hasPrevPage := decide (page > 1)
    searchQuery := q }

/-- Result of GET /:id. -/
inductive GetProductResult where
  | ok (data : Product)
  | notFound
deriving DecidableEq

/-- GET /:id (src/routes/productRoutes.js lines 341-361): plain `findById`,
404 when absent. There is no `isActive` condition in the lookup. -/
def getProductById (store : List Product) (id : Nat) : GetProductResult :=
  match findById store id with
  | none => GetProductResult.notFound
  | some p => GetProductResult.ok p

/-- The request body fields common to create and update
(`{name, description, price, category, stock}` after `parseFloat`/`parseInt`). -/
structure ProductFields where
  name : String
  description : String
  price : Rat
  category : String
  stock : Int
deriving DecidableEq

/-- Result of POST /. -/
inductive CreateResult where
  | validationError (message : String)
  | created (data : Product)
deriving DecidableEq

/-- POST / (src/routes/productRoutes.js lines 364-400): when no files were
uploaded the handler returns 400 before `Product.create` runs, so the store is
untouched. Otherwise a new product is persisted with the uploaded images.
`freshId` and `now` stand for the store-generated `_id` and `createdAt`;
`isActive := true` is the schema default (the Mongoose model file is not in
src/; the default is documented in the repository README data model). -/
def createProduct (store : List Product) (freshId now : Nat)
    (fields : ProductFields) (files : List Image) : CreateResult × List Product :=
  if files.length = 0 then
    (CreateResult.validationError "At least one image is required", store)
  else
    let p : Product :=
      { pid := freshId
        name := fields.name
        description := fields.description
        category := fields.category
        images := files
        price := fields.price
        stock := fields.stock
        isActive := true
        createdAt := now }
    (CreateResult.created p, store ++ [p])

/-- Result of PUT /:id and DELETE /:id lookups. -/
inductive UpdateResult where
  | ok (data : Product)
  | notFound
deriving DecidableEq

/-- PUT /:id (src/routes/productRoutes.js lines 403-451): builds `updateData`
from `{name, description, price, category, stock}`; when files were uploaded it
first reads the existing product and sets `updateData.images` to the existing
images followed by the new ones (falling back to just the new ones when the
read misses); then `findByIdAndUpdate` applies `updateData`. -/
def updateProduct (store : List Product) (id : Nat) (fields : ProductFields)
    (files : List Image) : UpdateResult × List Product :=
  let updImages : Option (List Image) :=
    if files.length > 0 then
      match findById store id with
      | some existing => some (existing.images ++ files)
      | none => some files
    else none
  let applyData : Product → Product := fun p =>
    let q := { p with
      name := fields.name
      description := fields.description
      price := fields.price
      category := fields.category
      stock := fields.stock }
    match updImages with
    | some imgs => { q with images := imgs }
    | none => q
  match findByIdAndUpdate store id applyData with
  | (none, s) => (UpdateResult.notFound, s)
  | (some p, s) => (UpdateResult.ok p, s)

/-- PUT /api/products/:id (src/unnamed/part_000 lines 212-280): destructures
only `{name, description, price, stock}` from the body, so `category` never
enters `updateData`; the image merge has no fallback branch (when the pre-read
misses, no `images` key is set). -/
def updateProductServer (store : List Product) (id : Nat) (fields : ProductFields)
    (files : List Image) : UpdateResult × List Product :=
  let updImages : Option (List Image) :=
    if files.length > 0 then
      match findById store id with
      | some existing => some (existing.images ++ files)
      | none => none
    else none
  let applyData : Product → Product := fun p =>
    let q := { p with
      name := fields.name
      description := fields.description
      price := fields.price
      stock := fields.stock }
    match updImages with
    | some imgs => { q with images := imgs }
    | none => q
  match findByIdAndUpdate store id applyData with
  | (none, s) => (UpdateResult.notFound, s)
  | (some p, s) => (UpdateResult.ok p, s)

/-- Result of DELETE /:id. -/
inductive DeleteResult where
  | ok (message : String)
  | notFound
deriving DecidableEq

/-- DELETE /:id (src/routes/productRoutes.js lines 454-480, identical in
src/unnamed/part_000 lines 283-310): `findByIdAndUpdate(id, {isActive: false})`;
404 only when the id is absent. -/
def softDeleteProduct (store : List Product) (id : Nat) :
    DeleteResult × List Product :=
  match findByIdAndUpdate store id (fun p => { p with isActive := false }) with
  | (none, s) => (DeleteResult.notFound, s)
  | (some _, s) => (DeleteResult.ok "Product deleted successfully", s)

/-- A user document. `password` holds the stored bcrypt hash. -/
structure User where
  uid : Nat
  name : String
  email : String
  phone : String
  zipcode : String
  password : String
  role : String
  isActive : Bool
deriving DecidableEq

/-- Outcome of the auth endpoints (HTTP status in the comment). -/
inductive AuthResult where
  | badRequest (message : String)
  | conflict (message : String)
  | authError (message : String)
  | ok (user : User) (token : String)
deriving DecidableEq

/-- POST /api/auth/register (src/routes/authRoutes.js lines 9-29). `hash`
embeds `bcrypt.hash(password, 10)` and `sign` embeds `jwt.sign({id, role},
secret, {expiresIn: 4h})`; `freshId` is the store-generated id. A missing body
field is embedded as `""` (the JS falsy check `!name || ...`). The duplicate
check is `User.findOne({email: email.toLowerCase()})` and the stored email is
lower-cased. New users get `isActive := true` (schema default, modelled from
the spec data model since the Mongoose model file is not in src/). -/
def registerUser (users : List User) (freshId : Nat) (hash : String → String)
    (sign : Nat → String → String) (name email phone zipcode password : String) :
    AuthResult × List User :=
  if name = "" || email = "" || phone = "" || zipcode = "" || password = "" then
    (AuthResult.badRequest "All fields are required", users)
  else
    match users.find? (fun u => u.email == lowerCase email) with
    | some _ => (AuthResult.conflict "Email already in use", users)
    | none =>
        let u : User :=
          { uid := freshId
            name := name
            email := lowerCase email
            phone := phone
            zipcode := zipcode
            password := hash password
            role := "user"
            isActive := true }
        (AuthResult.ok u (sign u.uid u.role), users ++ [u])

/-- POST /api/auth/login (src/routes/authRoutes.js lines 32-54). `compare`
embeds `bcrypt.compare(password, user.password)`. The lookup is
`User.findOne({email: email.toLowerCase(), isActive: true})`; both failure
branches return 401 with the same literal message. -/
def loginUser (users : List User) (compare : String → String → Bool)
    (sign : Nat → String → String) (email password : String) : AuthResult :=
  if email = "" || password = "" then
    AuthResult.badRequest "Email and password are required"
  else
    match users.find? (fun u => u.email == lowerCase email && u.isActive) with
    | none => AuthResult.authError "Invalid credentials"
    | some user =>
        if compare password user.password then
          AuthResult.ok user (sign user.uid user.role)
        else
          AuthResult.authError "Invalid credentials"

/-! ### Helper lemmas -/

/-- For a positive divisor, the embedded `Math.ceil(a / b)` agrees with the
mathematical ceiling of the exact rational quotient. -/
theorem jsCeilDiv_eq_ceil (a b : Nat) (hb : 0 < b) :
    jsCeilDiv a b = Nat.ceil ((a : ℚ) / (b : ℚ)) := by
  unfold jsCeilDiv
  rcases Nat.eq_zero_or_pos (a % b) with h | h
  · obtain ⟨q, rfl⟩ : b ∣ a := Nat.dvd_of_mod_eq_zero h
    have hbq : ((b * q : ℕ) : ℚ) / (b : ℚ) = (q : ℚ) := by
      push_cast
      field_simp
    rw [h, hbq, Nat.ceil_natCast, Nat.mul_div_cancel_left _ hb]
    simp
  · have hne : a / b + 1 ≠ 0 := Nat.succ_ne_zero (a / b)
    rw [if_neg (show ¬ a % b = 0 by omega)]
    symm
    rw [Nat.ceil_eq_iff hne]
    have hdm := Nat.div_add_mod a b
    have hb0 : (0 : ℚ) < (b : ℚ) := by exact_mod_cast hb
    constructor
    · rw [Nat.add_sub_cancel, lt_div_iff₀ hb0]
      have hlt : b * (a / b) < a := by omega
      have hlt' : (a / b) * b < a := by rw [mul_comm]; exact hlt
      exact_mod_cast hlt'
    · rw [div_le_iff₀ hb0]
      have hmlt : a % b < b := Nat.mod_lt a hb
      have hexp : (a / b + 1) * b = b * (a / b) + b := by ring
      have hle : a ≤ (a / b + 1) * b := by omega
      exact_mod_cast hle

/-- Any element of a `skip`/`limit` page slice is an element of the full list. -/
theorem mem_of_mem_page {l : List Product} {n m : Nat} {x : Product}
    (hx : x ∈ (l.drop n).take m) : x ∈ l :=
  List.drop_subset n l (List.take_subset m (l.drop n) hx)

/-- Sorting by creation time preserves membership. -/
theorem mem_sortByCreatedAtDesc {l : List Product} {x : Product} :
    x ∈ sortByCreatedAtDesc l ↔ x ∈ l :=
  List.mem_insertionSort _

/-- Every element of a list appears on some page of size one. -/
theorem exists_page_slice {l : List Product} {x : Product} (hx : x ∈ l) :
    ∃ i, (l.drop i).take 1 = [x] := by
  induction l with
  | nil => cases hx
  | cons a t ih =>
    rcases List.mem_cons.mp hx with h | h
    · exact ⟨0, by simp [h]⟩
    · obtain ⟨i, hi⟩ := ih h
      exact ⟨i + 1, by simpa using hi⟩

/-! ### Demo data used by witnesses -/

/-- A generic uploaded image. -/
def imgA : Image := Image.ref "/uploads/a.jpg"

/-- A second uploaded image. -/
def imgB : Image := Image.ref "/uploads/b.jpg"

/-- Active product, category Electronics, newest. -/
def prodHeadphones : Product :=
  { pid := 1, name := "Wireless Headphones",
    description := "High quality wireless headphones",
    category := "Electronics", images := [imgA], price := 99, stock := 50,
    isActive := true, createdAt := 3 }

/-- Active product whose category alone mentions electronics. -/
def prodLamp : Product :=
  { pid := 2, name := "Desk Lamp", description := "A small desk lamp",
    category := "Electronics", images := [imgA], price := 10, stock := 5,
    isActive := true, createdAt := 2 }

/-- Active product, category Furniture. -/
def prodChair : Product :=
  { pid := 3, name := "Office Chair", description := "Ergonomic chair",
    category := "Furniture", images := [imgA], price := 120, stock := 8,
    isActive := true, createdAt := 1 }

/-- Soft-deleted product. -/
def prodOld : Product :=
  { pid := 4, name := "Old Phone", description := "Legacy stock",
    category := "Electronics", images := [imgA], price := 20, stock := 0,
    isActive := false, createdAt := 0 }

/-- A small store: three active products and one soft-deleted one. -/
def demoStore : List Product := [prodHeadphones, prodLamp, prodChair, prodOld]

/-- Request body fields used by the update witnesses. -/
def demoFields : ProductFields :=
  { name := "Office Chair v2", description := "Ergonomic chair, restocked",
    price := 130, category := "Furniture", stock := 12 }

/-! ### Claim C1 -/

/-- Claim C1: for every list or search request with valid page and pageSize,
the pagination metadata satisfies totalPages = ceil(total/pageSize),
hasNextPage iff page*pageSize < total and hasPrevPage iff page > 1, where
total is the count of matching active products (the count filter for the list
endpoint, the search criteria filter for the search endpoints of both
variants). -/
theorem pagination_metadata_correct (store : List Product) (q : String)
    (page limit : Nat) (hpage : 1 ≤ page) (hlimit : 1 ≤ limit) :
    ((listProducts store page limit).totalPages
        = Nat.ceil (((store.filter (fun p => p.isActive)).length : ℚ) / (limit : ℚ))
      ∧ ((listProducts store page limit).hasNextPage = true
          ↔ page * limit < (store.filter (fun p => p.isActive)).length)
      ∧ ((listProducts store page limit).hasPrevPage = true ↔ 1 < page))
    ∧ ((searchProducts store q page limit).totalPages
        = Nat.ceil (((store.filter (searchCriteria q)).length : ℚ) / (limit : ℚ))
      ∧ ((searchProducts store q page limit).hasNextPage = true
          ↔ page * limit < (store.filter (searchCriteria q)).length)
      ∧ ((searchProducts store q page limit).hasPrevPage = true ↔ 1 < page))
    ∧ ((searchProductsServer store q page limit).totalPages
        = Nat.ceil (((store.filter (searchCriteriaServer q)).length : ℚ) / (limit : ℚ))
      ∧ ((searchProductsServer store q page limit).hasNextPage = true
          ↔ page * limit < (store.filter (searchCriteriaServer q)).length)
      ∧ ((searchProductsServer store q page limit).hasPrevPage = true ↔ 1 < page)) := by
  refine ⟨⟨?_, ?_, ?_⟩, ⟨?_, ?_, ?_⟩, ⟨?_, ?_, ?_⟩⟩ <;>
    simp [listProducts, searchProducts, searchProductsServer,
      jsCeilDiv_eq_ceil _ _ hlimit]

/-- Claim C1 witness: the list metadata at page 2, pageSize 2 over the demo
store (three active products). -/
theorem pagination_metadata_correct_witness :
    (listProducts demoStore 2 2).totalPages
        = Nat.ceil (((demoStore.filter (fun p => p.isActive)).length : ℚ) / ((2 : Nat) : ℚ))
      ∧ ((listProducts demoStore 2 2).hasNextPage = true
          ↔ 2 * 2 < (demoStore.filter (fun p => p.isActive)).length)
      ∧ ((listProducts demoStore 2 2).hasPrevPage = true ↔ 1 < 2) :=
  (pagination_metadata_correct demoStore "lamp" 2 2 (by decide) (by decide)).1

/-! ### Claim C2 -/

/-- Claim C2 counterexample: prodLamp is active and its category
"Electronics" contains "electron" case-insensitively while its name and
description do not, yet the server variant search (src/unnamed/part_000, whose
criteria test only name and description) returns no data for the query
"electron" over a store holding exactly prodLamp. This refutes the claim that
search returns exactly the active products whose name OR description OR
category contains the query. -/
theorem search_category_counterexample :
    prodLamp.isActive = true
    ∧ regexMatchCI prodLamp.category "electron" = true
    ∧ regexMatchCI prodLamp.name "electron" = false
    ∧ regexMatchCI prodLamp.description "electron" = false
    ∧ (searchProductsServer [prodLamp] "electron" 1 12).data = [] := by
  decide

/-- Claim C2 (amended): the router variant search matches exactly the active
products whose name, description or category contains the query as a
case-insensitive substring — every product on any result page matches, and
every matching product appears on some page — while the server variant matches
only on name or description. -/
theorem search_matches_exactly (store : List Product) (q : String) (x : Product) :
    ((∀ page limit, x ∈ (searchProducts store q page limit).data →
        x ∈ store ∧ x.isActive = true
          ∧ (regexMatchCI x.name q = true ∨ regexMatchCI x.description q = true
              ∨ regexMatchCI x.category q = true))
      ∧ (x ∈ store → x.isActive = true →
          (regexMatchCI x.name q = true ∨ regexMatchCI x.description q = true
            ∨ regexMatchCI x.category q = true) →
          ∃ page, x ∈ (searchProducts store q page 1).data))
    ∧ ((∀ page limit, x ∈ (searchProductsServer store q page limit).data →
        x ∈ store ∧ x.isActive = true
          ∧ (regexMatchCI x.name q = true ∨ regexMatchCI x.description q = true))
      ∧ (x ∈ store → x.isActive = true →
          (regexMatchCI x.name q = true ∨ regexMatchCI x.description q = true) →
          ∃ page, x ∈ (searchProductsServer store q page 1).data)) := by
  constructor
  · constructor
    · intro page limit hx
      have hx' : x ∈ ((sortByCreatedAtDesc (store.filter (searchCriteria q))).drop
          ((page - 1) * limit)).take limit := hx
      have hmem := mem_sortByCreatedAtDesc.mp (mem_of_mem_page hx')
      rcases List.mem_filter.mp hmem with ⟨hs, hcrit⟩
      simp only [searchCriteria, Bool.and_eq_true, Bool.or_eq_true] at hcrit
      exact ⟨hs, hcrit.1, by tauto⟩
    · intro hs hact hmatch
      have hcrit : searchCriteria q x = true := by
        simp only [searchCriteria, Bool.and_eq_true, Bool.or_eq_true]
        exact ⟨hact, by tauto⟩
      have hmem : x ∈ sortByCreatedAtDesc (store.filter (searchCriteria q)) :=
        mem_sortByCreatedAtDesc.mpr (List.mem_filter.mpr ⟨hs, hcrit⟩)
      obtain ⟨i, hi⟩ := exists_page_slice hmem
      refine ⟨i + 1, ?_⟩
      show x ∈ ((sortByCreatedAtDesc (store.filter (searchCriteria q))).drop
          ((i + 1 - 1) * 1)).take 1
      have hidx : (i + 1 - 1) * 1 = i := by omega
      rw [hidx, hi]
      simp
  · constructor
    · intro page limit hx
      have hx' : x ∈ ((sortByCreatedAtDesc (store.filter (searchCriteriaServer q))).drop
          ((page - 1) * limit)).take limit := hx
      have hmem := mem_sortByCreatedAtDesc.mp (mem_of_mem_page hx')
      rcases List.mem_filter.mp hmem with ⟨hs, hcrit⟩
      simp only [searchCriteriaServer, Bool.and_eq_true, Bool.or_eq_true] at hcrit
      exact ⟨hs, hcrit.1, by tauto⟩
    · intro hs hact hmatch
      have hcrit : searchCriteriaServer q x = true := by
        simp only [searchCriteriaServer, Bool.and_eq_true, Bool.or_eq_true]
        exact ⟨hact, by tauto⟩
      have hmem : x ∈ sortByCreatedAtDesc (store.filter (searchCriteriaServer q)) :=
        mem_sortByCreatedAtDesc.mpr (List.mem_filter.mpr ⟨hs, hcrit⟩)
      obtain ⟨i, hi⟩ := exists_page_slice hmem
      refine ⟨i + 1, ?_⟩
      show x ∈ ((sortByCreatedAtDesc (store.filter (searchCriteriaServer q))).drop
          ((i + 1 - 1) * 1)).take 1
      have hidx : (i + 1 - 1) * 1 = i := by omega
      rw [hidx, hi]
      simp

/-- Claim C2 witness: the router variant search for "electron" over a store
holding only prodLamp returns it on page 1, and it matches through its
category. -/
theorem search_matches_exactly_witness :
    prodLamp ∈ [prodLamp] ∧ prodLamp.isActive = true
      ∧ (regexMatchCI prodLamp.name "electron" = true
          ∨ regexMatchCI prodLamp.description "electron" = true
          ∨ regexMatchCI prodLamp.category "electron" = true) :=
  (search_matches_exactly [prodLamp] "electron" prodLamp).1.1 1 12 (by decide)

/-! ### Claim C3 -/

/-- Claim C3: updating an existing product with a non-empty list of newly
uploaded images yields an image sequence equal to the old sequence followed by
the new images, so the result length is the old length plus the new length and
never smaller than the old length — in both the router and the server variant. -/
theorem update_appends_images (store : List Product) (id : Nat)
    (fields : ProductFields) (files : List Image) (p : Product)
    (hp : findById store id = some p) (hf : files ≠ []) :
    (∃ r, (updateProduct store id fields files).1 = UpdateResult.ok r
        ∧ r.images = p.images ++ files
        ∧ r.images.length = p.images.length + files.length
        ∧ p.images.length ≤ r.images.length)
    ∧ (∃ r, (updateProductServer store id fields files).1 = UpdateResult.ok r
        ∧ r.images = p.images ++ files
        ∧ r.images.length = p.images.length + files.length
        ∧ p.images.length ≤ r.images.length) := by
  rcases files with _ | ⟨f, fs⟩
  · exact absurd rfl hf
  constructor
  · have h1 : (updateProduct store id fields (f :: fs)).1
        = UpdateResult.ok { p with
            name := fields.name, description := fields.description,
            price := fields.price, category := fields.category,
            stock := fields.stock, images := p.images ++ f :: fs } := by
      unfold updateProduct findByIdAndUpdate
      rw [hp]
      simp
    exact ⟨_, h1, rfl, by simp, by simp⟩
  · have h1 : (updateProductServer store id fields (f :: fs)).1
        = UpdateResult.ok { p with
            name := fields.name, description := fields.description,
            price := fields.price, stock := fields.stock,
            images := p.images ++ f :: fs } := by
      unfold updateProductServer findByIdAndUpdate
      rw [hp]
      simp
    exact ⟨_, h1, rfl, by simp, by simp⟩

/-- Claim C3 witness: appending one image to prodChair (one existing image)
gives the two-image sequence. -/
theorem update_appends_images_witness :
    (∃ r, (updateProduct [prodChair] 3 demoFields [imgB]).1 = UpdateResult.ok r
        ∧ r.images = prodChair.images ++ [imgB]
        ∧ r.images.length = prodChair.images.length + [imgB].length
        ∧ prodChair.images.length ≤ r.images.length)
    ∧ (∃ r, (updateProductServer [prodChair] 3 demoFields [imgB]).1 = UpdateResult.ok r
        ∧ r.images = prodChair.images ++ [imgB]
        ∧ r.images.length = prodChair.images.length + [imgB].length
        ∧ prodChair.images.length ≤ r.images.length) :=
  update_appends_images [prodChair] 3 demoFields [imgB] prodChair (by decide) (by decide)

/-! ### Claim C5 -/

/-- Claim C5: a create request with an empty uploaded image list fails with the
ValidationError message and persists nothing, regardless of the field values. -/
theorem create_requires_images (store : List Product) (freshId now : Nat)
    (fields : ProductFields) :
    (createProduct store freshId now fields []).1
        = CreateResult.validationError "At least one image is required"
    ∧ (createProduct store freshId now fields []).2 = store :=
  ⟨rfl, rfl⟩

/-! ### Store lemmas for the soft-delete claims -/

/-- A product present in the store is found by its id. -/
theorem findById_isSome_of_mem {store : List Product} {p : Product}
    (hp : p ∈ store) : (findById store p.pid).isSome = true := by
  induction store with
  | nil => cases hp
  | cons a t ih =>
    simp only [findById]
    by_cases h : a.pid = p.pid
    · simp [h]
    · rcases List.mem_cons.mp hp with rfl | hpt
      · exact absurd rfl h
      · simp only [beq_iff_eq, h, if_false]
        exact ih hpt

/-- Looking up the updated id after `updateById` sees the updated document,
provided the update preserves the id. -/
theorem findById_updateById (store : List Product) (id : Nat)
    (f : Product → Product) (hf : ∀ x, (f x).pid = x.pid) :
    findById (updateById store id f) id = (findById store id).map f := by
  induction store with
  | nil => rfl
  | cons a t ih =>
    simp only [updateById]
    by_cases h : a.pid = id
    · have hb : (a.pid == id) = true := beq_iff_eq.mpr h
      have hb2 : ((f a).pid == id) = true := beq_iff_eq.mpr (by rw [hf a]; exact h)
      rw [if_pos hb]
      simp only [findById, hb, hb2, if_true]
      rfl
    · have hb : (a.pid == id) = false := beq_eq_false_iff_ne.mpr h
      rw [if_neg (by simp [hb])]
      simp only [findById, hb, if_false]
      exact ih

/-- Updating twice with an idempotent, id-preserving update equals updating
once. -/
theorem updateById_updateById (store : List Product) (id : Nat)
    (f : Product → Product) (hf : ∀ x, (f x).pid = x.pid)
    (hidem : ∀ x, f (f x) = f x) :
    updateById (updateById store id f) id f = updateById store id f := by
  induction store with
  | nil => rfl
  | cons a t ih =>
    by_cases h : a.pid = id
    · have hb : (a.pid == id) = true := beq_iff_eq.mpr h
      have hb2 : ((f a).pid == id) = true := beq_iff_eq.mpr (by rw [hf a]; exact h)
      simp only [updateById, hb, if_true, hb2, hidem a]
    · have hb : (a.pid == id) = false := beq_eq_false_iff_ne.mpr h
      simp only [updateById, hb, Bool.false_eq_true, if_false, List.cons.injEq, true_and]
      exact ih

/-- When the store has unique ids, any element of the soft-deleted store that
carries the deleted id is inactive. -/
theorem isActive_false_of_mem_updateById {store : List Product} {id : Nat}
    (hnodup : (store.map Product.pid).Nodup) {x : Product}
    (hx : x ∈ updateById store id (fun p => { p with isActive := false }))
    (hpid : x.pid = id) : x.isActive = false := by
  induction store with
  | nil => cases hx
  | cons a t ih =>
    rw [List.map_cons, List.nodup_cons] at hnodup
    obtain ⟨hnotin, hnd⟩ := hnodup
    simp only [updateById] at hx
    by_cases h : a.pid = id
    · rw [if_pos (beq_iff_eq.mpr h)] at hx
      rcases List.mem_cons.mp hx with rfl | hxt
      · rfl
      · exact absurd (List.mem_map.mpr ⟨x, hxt, by rw [hpid, h]⟩) hnotin
    · rw [if_neg (by simp [beq_eq_false_iff_ne.mpr h])] at hx
      rcases List.mem_cons.mp hx with rfl | hxt
      · exact absurd hpid h
      · exact ih hnd hxt

/-- Every product on a list page comes from the store and is active. -/
theorem mem_listProducts_data {store : List Product} {page limit : Nat}
    {x : Product} (hx : x ∈ (listProducts store page limit).data) :
    x ∈ store ∧ x.isActive = true := by
  have hx' : x ∈ ((sortByCreatedAtDesc (store.filter (fun p => p.isActive))).drop
      ((page - 1) * limit)).take limit := hx
  have hmem := mem_sortByCreatedAtDesc.mp (mem_of_mem_page hx')
  rcases List.mem_filter.mp hmem with ⟨hs, hact⟩
  exact ⟨hs, hact⟩

/-- Every product on a router search page comes from the store and is active. -/
theorem mem_searchProducts_data {store : List Product} {q : String}
    {page limit : Nat} {x : Product}
    (hx : x ∈ (searchProducts store q page limit).data) :
    x ∈ store ∧ x.isActive = true := by
  have hx' : x ∈ ((sortByCreatedAtDesc (store.filter (searchCriteria q))).drop
      ((page - 1) * limit)).take limit := hx
  have hmem := mem_sortByCreatedAtDesc.mp (mem_of_mem_page hx')
  rcases List.mem_filter.mp hmem with ⟨hs, hcrit⟩
  simp only [searchCriteria, Bool.and_eq_true] at hcrit
  exact ⟨hs, hcrit.1⟩

/-- Every product on a server search page comes from the store and is active. -/
theorem mem_searchProductsServer_data {store : List Product} {q : String}
    {page limit : Nat} {x : Product}
    (hx : x ∈ (searchProductsServer store q page limit).data) :
    x ∈ store ∧ x.isActive = true := by
  have hx' : x ∈ ((sortByCreatedAtDesc (store.filter (searchCriteriaServer q))).drop
      ((page - 1) * limit)).take limit := hx
  have hmem := mem_sortByCreatedAtDesc.mp (mem_of_mem_page hx')
  rcases List.mem_filter.mp hmem with ⟨hs, hcrit⟩
  simp only [searchCriteriaServer, Bool.and_eq_true] at hcrit
  exact ⟨hs, hcrit.1⟩

/-! ### Claim C4 -/

/-- Claim C4: for a product present in a store with unique ids, softDelete of
its id succeeds, afterwards no list page (any page, any page size) contains a
product with that id, and list and search pages only ever contain products
with isActive = true. -/
theorem softDelete_excludes_from_list (store : List Product) (p x : Product)
    (q : String) (page limit : Nat)
    (hnodup : (store.map Product.pid).Nodup) (hp : p ∈ store) :
    (softDeleteProduct store p.pid).1
        = DeleteResult.ok "Product deleted successfully"
    ∧ (x ∈ (listProducts (softDeleteProduct store p.pid).2 page limit).data →
        x.pid ≠ p.pid)
    ∧ (x ∈ (listProducts store page limit).data → x.isActive = true)
    ∧ (x ∈ (searchProducts store q page limit).data → x.isActive = true)
    ∧ (x ∈ (searchProductsServer store q page limit).data → x.isActive = true) := by
  obtain ⟨y, hy⟩ := Option.isSome_iff_exists.mp (findById_isSome_of_mem hp)
  have h2 : (softDeleteProduct store p.pid).2
      = updateById store p.pid (fun r => { r with isActive := false }) := by
    simp only [softDeleteProduct, findByIdAndUpdate, hy, Option.map_some']
  refine ⟨?_, ?_, ?_, ?_, ?_⟩
  · simp only [softDeleteProduct, findByIdAndUpdate, hy, Option.map_some']
  · intro hx hpid
    rw [h2] at hx
    obtain ⟨hmem, hact⟩ := mem_listProducts_data hx
    have hfalse := isActive_false_of_mem_updateById hnodup hmem hpid
    rw [hact] at hfalse
    cases hfalse
  · exact fun hx => (mem_listProducts_data hx).2
  · exact fun hx => (mem_searchProducts_data hx).2
  · exact fun hx => (mem_searchProductsServer_data hx).2

/-- Claim C4 witness: deleting prodLamp from the demo store succeeds, and the
activity facts hold for prodHeadphones on page 1. -/
theorem softDelete_excludes_from_list_witness :
    (softDeleteProduct demoStore prodLamp.pid).1
        = DeleteResult.ok "Product deleted successfully"
    ∧ (prodHeadphones ∈
          (listProducts (softDeleteProduct demoStore prodLamp.pid).2 1 12).data →
        prodHeadphones.pid ≠ prodLamp.pid)
    ∧ (prodHeadphones ∈ (listProducts demoStore 1 12).data →
        prodHeadphones.isActive = true)
    ∧ (prodHeadphones ∈ (searchProducts demoStore "chair" 1 12).data →
        prodHeadphones.isActive = true)
    ∧ (prodHeadphones ∈ (searchProductsServer demoStore "chair" 1 12).data →
        prodHeadphones.isActive = true) :=
  softDelete_excludes_from_list demoStore prodLamp prodHeadphones "chair" 1 12
    (by decide) (by decide)

/-! ### Claim C8 -/

/-- Claim C8: getById returns any product whose id is present, with no filter
on isActive, so soft-deleted products remain fetchable by id. -/
theorem getById_ignores_isActive (store : List Product) (id : Nat) (p : Product)
    (hp : findById store id = some p) :
    getProductById store id = GetProductResult.ok p := by
  simp [getProductById, hp]

/-- Claim C8 witness: the soft-deleted prodOld is still returned by getById. -/
theorem getById_ignores_isActive_witness :
    getProductById [prodOld] 4 = GetProductResult.ok prodOld
    ∧ prodOld.isActive = false :=
  ⟨getById_ignores_isActive [prodOld] 4 prodOld (by decide), rfl⟩

/-! ### Claim C9 -/

/-- Claim C9: softDelete is idempotent: when the id is present, both the first
and the second delete succeed, and the store after the second call equals the
store after the first. -/
theorem softDelete_idempotent (store : List Product) (id : Nat) (p : Product)
    (hp : findById store id = some p) :
    (softDeleteProduct store id).1
        = DeleteResult.ok "Product deleted successfully"
    ∧ (softDeleteProduct (softDeleteProduct store id).2 id).1
        = DeleteResult.ok "Product deleted successfully"
    ∧ (softDeleteProduct (softDeleteProduct store id).2 id).2
        = (softDeleteProduct store id).2 := by
  have hpidf : ∀ x : Product,
      ((fun r : Product => { r with isActive := false }) x).pid = x.pid :=
    fun _ => rfl
  have hidem : ∀ x : Product,
      (fun r : Product => { r with isActive := false })
          ((fun r : Product => { r with isActive := false }) x)
        = (fun r : Product => { r with isActive := false }) x := fun _ => rfl
  have h2 : (softDeleteProduct store id).2
      = updateById store id (fun r => { r with isActive := false }) := by
    simp only [softDeleteProduct, findByIdAndUpdate, hp, Option.map_some']
  have hfind : findById (updateById store id (fun r => { r with isActive := false })) id
      = some { p with isActive := false } := by
    rw [findById_updateById _ _ _ hpidf, hp]
    rfl
  refine ⟨?_, ?_, ?_⟩
  · simp only [softDeleteProduct, findByIdAndUpdate, hp, Option.map_some']
  · rw [h2]
    simp only [softDeleteProduct, findByIdAndUpdate, hfind, Option.map_some']
  · rw [h2]
    simp only [softDeleteProduct, findByIdAndUpdate, hfind, Option.map_some']
    exact updateById_updateById store id _ hpidf hidem

/-- Claim C9 witness: double delete of prodHeadphones in a one-product store. -/
theorem softDelete_idempotent_witness :
    (softDeleteProduct [prodHeadphones] 1).1
        = DeleteResult.ok "Product deleted successfully"
    ∧ (softDeleteProduct (softDeleteProduct [prodHeadphones] 1).2 1).1
        = DeleteResult.ok "Product deleted successfully"
    ∧ (softDeleteProduct (softDeleteProduct [prodHeadphones] 1).2 1).2
        = (softDeleteProduct [prodHeadphones] 1).2 :=
  softDelete_idempotent [prodHeadphones] 1 prodHeadphones (by decide)

/-! ### Claim C6 -/

/-- Claim C6: when the store already holds a user whose stored (lower-cased)
email equals the lower-casing of the requested email — as is the case for any
previously registered user — a well-formed register call with that email fails
with the ConflictError message and leaves the user store unchanged. -/
theorem register_duplicate_email_conflict (users : List User) (freshId : Nat)
    (hash : String → String) (sign : Nat → String → String)
    (name email phone zipcode password : String) (w : User)
    (hw : w ∈ users) (hemail : w.email = lowerCase email)
    (hn : name ≠ "") (he : email ≠ "") (hph : phone ≠ "") (hz : zipcode ≠ "")
    (hpw : password ≠ "") :
    (registerUser users freshId hash sign name email phone zipcode password).1
        = AuthResult.conflict "Email already in use"
    ∧ (registerUser users freshId hash sign name email phone zipcode password).2
        = users := by
  have hsome : (users.find? (fun v => v.email == lowerCase email)).isSome := by
    rw [List.find?_isSome]
    exact ⟨w, hw, by simp [hemail]⟩
  obtain ⟨v, hv⟩ := Option.isSome_iff_exists.mp hsome
  constructor <;> simp [registerUser, hn, he, hph, hz, hpw, hv]

/-- Claim C6 witness: registering Alice twice (second time with a different
casing of the same email) yields the conflict and does not grow the store. -/
theorem register_duplicate_email_conflict_witness :
    (registerUser (registerUser [] 1 (fun s => s) (fun _ _ => "tok")
          "Alice" "Alice@Example.com" "123" "999" "pw").2
        2 (fun s => s) (fun _ _ => "tok") "Bob" "alice@EXAMPLE.com" "456" "888" "pw2").1
      = AuthResult.conflict "Email already in use"
    ∧ (registerUser (registerUser [] 1 (fun s => s) (fun _ _ => "tok")
          "Alice" "Alice@Example.com" "123" "999" "pw").2
        2 (fun s => s) (fun _ _ => "tok") "Bob" "alice@EXAMPLE.com" "456" "888" "pw2").2
      = (registerUser [] 1 (fun s => s) (fun _ _ => "tok")
          "Alice" "Alice@Example.com" "123" "999" "pw").2 :=
  register_duplicate_email_conflict _ 2 (fun s => s) (fun _ _ => "tok")
    "Bob" "alice@EXAMPLE.com" "456" "888" "pw2"
    { uid := 1, name := "Alice", email := "alice@example.com", phone := "123",
      zipcode := "999", password := "pw", role := "user", isActive := true }
    (by decide) (by decide) (by decide) (by decide) (by decide) (by decide)
    (by decide)

/-! ### Claim C7 -/

/-- Claim C7 counterexample: with an empty store nobody — in particular no
active user with the empty email — exists, yet login with an empty email
string returns the 400 ValidationError message, not the AuthError. The claim
quantifies over every email and password, so it fails at this input. -/
theorem login_empty_email_counterexample :
    loginUser [] (fun _ _ => false) (fun _ _ => "tok") "" "secret"
        = AuthResult.badRequest "Email and password are required"
    ∧ loginUser [] (fun _ _ => false) (fun _ _ => "tok") "" "secret"
        ≠ AuthResult.authError "Invalid credentials" := by
  decide

/-- Claim C7 (amended): for every nonempty email and password, login fails
with the same generic AuthError message both when no active user carries the
(lower-cased) email — including users that exist but are inactive — and when
the user is found but the hash comparison fails; the two failure branches
return the identical message. -/
theorem login_generic_invalid_credentials (users : List User)
    (compare : String → String → Bool) (sign : Nat → String → String)
    (email password : String) (he : email ≠ "") (hpw : password ≠ "") :
    ((∀ u ∈ users, ¬(u.email = lowerCase email ∧ u.isActive = true)) →
        loginUser users compare sign email password
          = AuthResult.authError "Invalid credentials")
    ∧ (∀ u, users.find? (fun v => v.email == lowerCase email && v.isActive)
          = some u →
        compare password u.password = false →
        loginUser users compare sign email password
          = AuthResult.authError "Invalid credentials") := by
  constructor
  · intro hno
    have hfind : users.find? (fun v => v.email == lowerCase email && v.isActive)
        = none := by
      rw [List.find?_eq_none]
      intro v hv hb
      simp only [Bool.and_eq_true, beq_iff_eq] at hb
      exact hno v hv ⟨hb.1, hb.2⟩
    simp [loginUser, he, hpw, hfind]
  · intro u hfind hcmp
    simp [loginUser, he, hpw, hfind, hcmp]

/-- Claim C7 witness: a wrong password for an existing active user, and an
inactive user with a matching password, both yield the same generic message. -/
def userAlice : User :=
  { uid := 1, name := "Alice", email := "alice@example.com", phone := "123",
    zipcode := "999", password := "hash", role := "user", isActive := true }

theorem login_generic_invalid_credentials_witness :
    loginUser [userAlice] (fun _ _ => false) (fun _ _ => "tok")
        "alice@example.com" "wrong"
      = AuthResult.authError "Invalid credentials" :=
  (login_generic_invalid_credentials [userAlice] (fun _ _ => false)
      (fun _ _ => "tok") "alice@example.com" "wrong"
      (by decide) (by decide)).2
    userAlice (by decide) rfl

/-! ### Claim C10 -/

/-- Update fields whose category differs from the category of prodChair. -/
def electronicsFields : ProductFields :=
  { name := "Smart Chair", description := "Now with speakers",
    price := 150, category := "Electronics", stock := 2 }

/-- Claim C10 counterexample: the server variant update (src/unnamed/part_000)
destructures only name, description, price and stock from the body, so an
image-less update that requests category Electronics leaves the stored
category Furniture unchanged — refuting the claim that category is
overwritten. -/
theorem update_category_counterexample :
    prodChair.category = "Furniture"
    ∧ electronicsFields.category = "Electronics"
    ∧ (updateProductServer [prodChair] 3 electronicsFields []).1
        = UpdateResult.ok { prodChair with
            name := electronicsFields.name,
            description := electronicsFields.description,
            price := electronicsFields.price, stock := electronicsFields.stock }
    ∧ (updateProductServer [prodChair] 3 electronicsFields []).1
        ≠ UpdateResult.ok { prodChair with
            name := electronicsFields.name,
            description := electronicsFields.description,
            price := electronicsFields.price,
            category := electronicsFields.category,
            stock := electronicsFields.stock } := by
  decide

/-- Claim C10 (amended): an update of an existing product with no new images
leaves the image sequence unchanged and overwrites name, description, price
and stock in both variants; category is overwritten by the router variant but
left unchanged by the server variant. -/
theorem update_without_images_frame (store : List Product) (id : Nat)
    (fields : ProductFields) (p : Product) (hp : findById store id = some p) :
    (updateProduct store id fields []).1
        = UpdateResult.ok { p with
                              name := fields.name, description := fields.description, price := fields.price, category := fields.category, stock := fields.stock }
    ∧ (updateProductServer store id fields []).1
        = UpdateResult.ok { p with
                              name := fields.name, description := fields.description, price := fields.price, stock := fields.stock }
    ∧ (∀ r, (updateProduct store id fields []).1 = UpdateResult.ok r →
        r.images = p.images)
    ∧ (∀ r, (updateProductServer store id fields []).1 = UpdateResult.ok r →
        r.images = p.images ∧ r.category = p.category) := by
  have h1 : (updateProduct store id fields []).1
      = UpdateResult.ok { p with
                            name := fields.name, description := fields.description, price := fields.price, category := fields.category, stock := fields.stock } := by
    unfold updateProduct findByIdAndUpdate
    rw [hp]
    simp
  have h2 : (updateProductServer store id fields []).1
      = UpdateResult.ok { p with
                            name := fields.name, description := fields.description, price := fields.price, stock := fields.stock } := by
    unfold updateProductServer findByIdAndUpdate
    rw [hp]
    simp
  refine ⟨h1, h2, ?_, ?_⟩
  · intro r hr
    rw [h1] at hr
    injection hr with hh
    rw [← hh]
  · intro r hr
    rw [h2] at hr
    injection hr with hh
    rw [← hh]
    exact ⟨rfl, rfl⟩

/-- Claim C10 witness: an image-less update of prodChair in both variants. -/
theorem update_without_images_frame_witness :
    (updateProduct [prodChair] 3 demoFields []).1
        = UpdateResult.ok { prodChair with
                              name := demoFields.name, description := demoFields.description, price := demoFields.price, category := demoFields.category, stock := demoFields.stock }
    ∧ (updateProductServer [prodChair] 3 demoFields []).1
        = UpdateResult.ok { prodChair with
                              name := demoFields.name, description := demoFields.description, price := demoFields.price, stock := demoFields.stock } :=
  ⟨(update_without_images_frame [prodChair] 3 demoFields prodChair (by decide)).1,
   (update_without_images_frame [prodChair] 3 demoFields prodChair (by decide)).2.1⟩

end Khushu
